import Mathlib

/-!
# Format-A IEEE layout engine — verification development

A shallow embedding of the document-layout logic of the Format-A
repository.  The embedding translates each Python generator into pure
Lean functions over an explicit output-unit type:

* `IeeeGenFixed` models `server/ieee_generator_fixed.py` (the DOCX
  generator imported by every serverless endpoint);
* `DocumentGenerator` models `server/document_generator.py` (a legacy
  DOCX generator variant; its explicit-image branch decodes base64
  outside any try/except, so decode failures propagate — modelled with
  `Except`);
* `GeneratePdf` models `api/generate-pdf.py` (a DOCX generator variant
  that emits abstract/keywords after the two-column break, and carries
  the recursive multi-level subsection walk `add_nested_subsection`);
* `PdfIdentical` models `server/pdf_generator_identical.py` (the
  PDF-native ReportLab backend);
* `Handlers` models the request-validation logic shared by
  `api/generate/ieee_pdf_correct.py` and `api/generate/pdf-preview.py`.

Machine-level concerns (OOXML/PDF byte layout, fonts, point sizes,
image widths, spacing) belong to the third-party writer libraries and
are out of scope; the embedding records the sequence of logical output
units (paragraphs, headings, images, captions, layout breaks) each
generator emits, which is what the claims under study are about.

Base64 decoding is performed by the Python standard library (an
external collaborator in the spec's interface section), so the
emitters are parameterised by a decode-success oracle
`dec : String → Bool`; `pyB64DecodeOk` below is a concrete model of it
used in closed instances.  Likewise `GeneratePdf`'s text sanitiser
(`unicodedata`-based `sanitize_text`) is a parameter `san`.
-/

/-- Python truthiness of an optional string field fetched with
`.get(key)`: `None` and `""` are falsy. -/
def truthy : Option String → Bool
  | none => false
  | some s => s != ""

/-- Python `str.upper()` restricted to its ASCII behaviour (all inputs
appearing in the development are ASCII). -/
def pyUpper (s : String) : String :=
  String.mk (s.data.map Char.toUpper)

/-- Characters after the first comma (`None` when no comma occurs). -/
def afterComma : List Char → Option (List Char)
  | [] => none
  | c :: cs => if c = ',' then some cs else afterComma cs

/-- Characters up to (excluding) the next comma. -/
def upToComma : List Char → List Char
  | [] => []
  | c :: cs => if c = ',' then [] else c :: upToComma cs

/-- Python `s.split(',')[1] if ',' in s else s`: the generators use it
to strip a `data:...;base64,` URL header from inbound image data. -/
def stripDataUrl (s : String) : String :=
  match afterComma s.data with
  | none => s
  | some rest => String.mk (upToComma rest)

/-- Standard base64 alphabet membership (excluding padding). -/
def isB64Char (c : Char) : Bool :=
  c.isAlphanum || c = '+' || c = '/'

/-- Modelled from the spec: the external base64 codec collaborator
("a base64 codec for inbound image data").  Success condition of
Python `base64.b64decode` in its default lenient mode: non-alphabet
bytes are discarded, then the total of data and padding characters
must be a multiple of four and the data-character count must not be
congruent to 1 modulo 4. -/
def pyB64DecodeOk (s : String) : Bool :=
  let dataChars := (s.data.filter isB64Char).length
  let pads := (s.data.filter (fun c => c = '=')).length
  ((dataChars + pads) % 4 == 0) && (dataChars % 4 != 1)

/-- One logical output unit emitted into the document body.  Styling
attributes (font, size, indent, spacing) are fixed by the style table
and not part of the unit. -/
inductive OutUnit where
  /-- the centred 24pt title paragraph -/
  | titlePara (text : String)
  /-- an author-name cell paragraph (bold) inside the author table -/
  | authorName (text : String)
  /-- an author detail / custom-field cell paragraph (italic) -/
  | authorDetail (text : String)
  /-- a spacing/dummy empty paragraph -/
  | emptyPara
  /-- the abstract paragraph (label prefix and body share it) -/
  | abstractPara (text : String)
  /-- the keywords paragraph -/
  | keywordsPara (text : String)
  /-- a heading paragraph at the given docx heading level -/
  | heading (level : Nat) (text : String)
  /-- a justified body paragraph -/
  | bodyPara (text : String)
  /-- a centred inline figure; carries the (stripped) base64 payload -/
  | figureImage (data : String)
  /-- a figure caption paragraph -/
  | figCaption (text : String)
  /-- a numbered reference entry paragraph -/
  | referenceEntry (text : String)
  /-- a placeholder paragraph the PDF backend emits when an image
  cannot be loaded (its text interpolates the exception and is not
  modelled) -/
  | imageErrorNote
  /-- a section break switching the column layout -/
  | columnBreak (continuous : Bool) (cols : Nat) (equalWidth : Bool) (noBalance : Bool)
deriving DecidableEq

/-- The caption texts occurring in a unit list, in order. -/
def captionsOf : List OutUnit → List String
  | [] => []
  | OutUnit.figCaption s :: rest => s :: captionsOf rest
  | _ :: rest => captionsOf rest

/-- Executable subsequence test: `isSubseqOf pat l` holds when the
units of `pat` occur in `l` in the given order (not necessarily
adjacent). -/
def isSubseqOf : List OutUnit → List OutUnit → Bool
  | [], _ => true
  | _ :: _, [] => false
  | a :: as, b :: bs => if a = b then isSubseqOf as bs else isSubseqOf (a :: as) bs

/-- `Fig. <section>.<n>: <caption>` label. -/
def capNum (secIdx n : Nat) (c : String) : String :=
  "Fig. " ++ toString secIdx ++ "." ++ toString n ++ ": " ++ c

/-- A content block: the loosely-typed JSON dict with `type`,
`content`, `data`, `caption`, `size` keys, all optional. -/
structure ContentBlock where
  type : Option String := none
  content : Option String := none
  data : Option String := none
  caption : Option String := none
  size : Option String := none
deriving DecidableEq

/-- An author dict: `name`, detail fields in the fixed order the
generators iterate them, and custom-field values. -/
structure Author where
  name : Option String := none
  department : Option String := none
  organization : Option String := none
  city : Option String := none
  state : Option String := none
  tamilnadu : Option String := none
  custom_fields : List String := []
deriving DecidableEq

/-- A reference dict. -/
structure Reference where
  text : Option String := none
deriving DecidableEq

/-- A flat subsection dict as consumed by `ieee_generator_fixed.py`
and `pdf_generator_identical.py` (only `title` and `content` read). -/
structure FlatSubsection where
  title : Option String := none
  content : Option String := none
deriving DecidableEq

/-- A section dict: both historical content-block keys, the legacy
`content` string and the flat subsection list. -/
structure Sec where
  title : Option String := none
  contentBlocks : Option (List ContentBlock) := none
  content_blocks : Option (List ContentBlock) := none
  content : Option String := none
  subsections : List FlatSubsection := []
deriving DecidableEq

/-- The parsed request body. -/
structure DocumentRequest where
  title : Option String := none
  authors : List Author := []
  abstract : Option String := none
  keywords : Option String := none
  sections : List Sec := []
  references : List Reference := []
deriving DecidableEq

/-- `section_data.get('contentBlocks', []) or
section_data.get('content_blocks', [])`: the legacy alias is consulted
only when the primary key is missing or empty (Python `or` on a falsy
list). -/
def getBlocks (s : Sec) : List ContentBlock :=
  let a := s.contentBlocks.getD []
  if a.isEmpty then s.content_blocks.getD [] else a

/-- `Sec` with the legacy `content` field removed. -/
def clearContent (s : Sec) : Sec :=
  ⟨s.title, s.contentBlocks, s.content_blocks, none, s.subsections⟩

/-- `Sec` with the title replaced. -/
def setTitle (s : Sec) (t : String) : Sec :=
  ⟨some t, s.contentBlocks, s.content_blocks, s.content, s.subsections⟩

/-- `b.get('type') == 'image' or (b.get('type') == 'text' and
b.get('data'))`: the image-bearing test used by the text-attached
caption counter (ieee_generator_fixed.py line 376). -/
def isImgOrTextData (b : ContentBlock) : Bool :=
  b.type == some "image" || (b.type == some "text" && truthy b.data)

/-- `b.get('type') == 'image'`: the test used by the explicit-image
caption counter (ieee_generator_fixed.py line 432). -/
def isImgType (b : ContentBlock) : Bool :=
  b.type == some "image"

namespace IeeeGenFixed

/-- The units a block contributes when its image part (if any) is
skipped: a text block with content keeps its paragraph, everything
else contributes nothing. -/
def textPart (b : ContentBlock) : List OutUnit :=
  if b.type == some "text" && truthy b.content then
    [OutUnit.bodyPara (b.content.getD "")]
  else []

/-- `add_section`'s per-block emission (ieee_generator_fixed.py lines
318-441).  `cbs` is the whole `content_blocks` list (figure numbers
are prefix counts over it), `i` the 0-based block index, `dec` the
base64-decode success oracle.  A text block with truthy `content`
emits its paragraph and then, when it carries truthy `data` and
`caption`, attempts the attached image: the data-URL header is
stripped, and a decode failure `continue`s (no image, no caption).
An explicit image block with truthy `data` and `caption` does the
same.  The text-attached counter counts image blocks and data-bearing
text blocks in the prefix; the explicit-image counter counts only
image blocks. -/
def blockUnits (dec : String → Bool) (cbs : List ContentBlock) (secIdx i : Nat)
    (b : ContentBlock) : List OutUnit :=
  if b.type == some "text" && truthy b.content then
    OutUnit.bodyPara (b.content.getD "") ::
    (if truthy b.data && truthy b.caption then
      (let raw := stripDataUrl (b.data.getD "")
       if dec raw then
         [OutUnit.figureImage raw,
          OutUnit.figCaption
            (capNum secIdx ((cbs.take (i+1)).countP isImgOrTextData)
              (b.caption.getD ""))]
       else [])
     else [])
  else if b.type == some "image" && truthy b.data && truthy b.caption then
    (let raw := stripDataUrl (b.data.getD "")
     if dec raw then
       [OutUnit.figureImage raw,
        OutUnit.figCaption
          (capNum secIdx ((cbs.take (i+1)).countP isImgType)
            (b.caption.getD ""))]
     else [])
  else []

/-- `for block_idx, block in enumerate(content_blocks)`. -/
def blocksGo (dec : String → Bool) (cbs : List ContentBlock) (secIdx : Nat) :
    Nat → List ContentBlock → List OutUnit
  | _, [] => []
  | i, b :: rest => blockUnits dec cbs secIdx i b ++ blocksGo dec cbs secIdx (i+1) rest

/-- All units of the content-block loop of a section. -/
def sectionBlocks (dec : String → Bool) (cbs : List ContentBlock) (secIdx : Nat) :
    List OutUnit :=
  blocksGo dec cbs secIdx 0 cbs

/-- One flat subsection: heading `"<sec>.<j> <title>"` (level 2) when
the title is truthy, then its content paragraph when truthy. -/
def subUnits (secIdx j : Nat) (s : FlatSubsection) : List OutUnit :=
  (if truthy s.title then
    [OutUnit.heading 2 (toString secIdx ++ "." ++ toString j ++ " " ++ s.title.getD "")]
   else [])
  ++ (if truthy s.content then [OutUnit.bodyPara (s.content.getD "")] else [])

/-- `for sub_idx, subsection in enumerate(..., 1)`. -/
def subsGo (secIdx : Nat) : Nat → List FlatSubsection → List OutUnit
  | _, [] => []
  | j, s :: rest => subUnits secIdx j s ++ subsGo secIdx (j+1) rest

/-- `add_section` (ieee_generator_fixed.py lines 304-475): optional
heading `"<idx>. <TITLE>"`, the content blocks, the legacy `content`
fallback (only when the merged block list is empty), then the flat
subsections. -/
def addSection (dec : String → Bool) (s : Sec) (secIdx : Nat) : List OutUnit :=
  (if truthy s.title then
    [OutUnit.heading 1 (toString secIdx ++ ". " ++ pyUpper (s.title.getD ""))]
   else [])
  ++ sectionBlocks dec (getBlocks s) secIdx
  ++ (if (getBlocks s).isEmpty && truthy s.content then
      [OutUnit.bodyPara (s.content.getD "")]
     else [])
  ++ subsGo secIdx 1 s.subsections

/-- Detail paragraphs of one author cell, in the generator's fixed
field order. -/
def detailsGo : List (Option String) → List OutUnit
  | [] => []
  | f :: rest =>
      (if truthy f then [OutUnit.authorDetail (f.getD "")] else []) ++ detailsGo rest

/-- Custom-field paragraphs of one author cell. -/
def customsGo : List String → List OutUnit
  | [] => []
  | v :: rest =>
      (if v != "" then [OutUnit.authorDetail v] else []) ++ customsGo rest

/-- One author-table cell: skipped entirely when `name` is falsy. -/
def authorUnits (a : Author) : List OutUnit :=
  if truthy a.name then
    OutUnit.authorName (a.name.getD "") ::
      (detailsGo [a.department, a.organization, a.city, a.state, a.tamilnadu]
       ++ customsGo a.custom_fields)
  else []

/-- Cells of the author table in order. -/
def authorsGo : List Author → List OutUnit
  | [] => []
  | a :: rest => authorUnits a ++ authorsGo rest

/-- `add_authors`: nothing for an empty list, otherwise the table plus
the trailing spacing paragraph. -/
def addAuthors (authors : List Author) : List OutUnit :=
  if authors.isEmpty then [] else authorsGo authors ++ [OutUnit.emptyPara]

/-- `add_abstract`: one paragraph when the abstract is non-empty. -/
def addAbstract (a : String) : List OutUnit :=
  if a != "" then [OutUnit.abstractPara a] else []

/-- `add_keywords`: the `Keywords: ...` paragraph plus the stabilising
dummy paragraph, when non-empty. -/
def addKeywords (k : String) : List OutUnit :=
  if k != "" then [OutUnit.keywordsPara ("Keywords: " ++ k), OutUnit.emptyPara] else []

/-- `for idx, ref in enumerate(references, 1)`: an entry is emitted
only for truthy `text`, but the number is the enumerate position. -/
def refsGo : Nat → List Reference → List OutUnit
  | _, [] => []
  | n, r :: rest =>
      (if truthy r.text then
        [OutUnit.referenceEntry ("[" ++ toString n ++ "] " ++ r.text.getD "")]
       else [])
      ++ refsGo (n+1) rest

/-- `add_references`: heading plus entries when the list is
non-empty. -/
def addReferences (refs : List Reference) : List OutUnit :=
  if refs.isEmpty then [] else OutUnit.heading 1 "REFERENCES" :: refsGo 1 refs

/-- `for idx, section_data in enumerate(form_data.get('sections', []), 1)`. -/
def secsGo (dec : String → Bool) : Nat → List Sec → List OutUnit
  | _, [] => []
  | j, s :: rest => addSection dec s j ++ secsGo dec (j+1) rest

/-- Everything `generate_ieee_document` emits before the layout break:
title (unconditionally), author table, abstract, keywords. -/
def phaseOne (d : DocumentRequest) : List OutUnit :=
  OutUnit.titlePara (d.title.getD "") ::
    (addAuthors d.authors
     ++ addAbstract (d.abstract.getD "")
     ++ addKeywords (d.keywords.getD ""))

/-- Everything emitted after the layout break: sections then
references. -/
def phaseTwo (dec : String → Bool) (d : DocumentRequest) : List OutUnit :=
  secsGo dec 1 d.sections ++ addReferences d.references

/-- `generate_ieee_document` (ieee_generator_fixed.py lines 587-646):
front matter, then one continuous section break configured with two
equal-width columns and `w:noBalance`, then the body. -/
def generate (dec : String → Bool) (d : DocumentRequest) : List OutUnit :=
  phaseOne d ++ OutUnit.columnBreak true 2 true true :: phaseTwo dec d

end IeeeGenFixed


namespace DocumentGenerator

/-- `document_generator.py`'s `add_section` per-block emission (lines
342-418).  Same shape as `IeeeGenFixed.blockUnits` except that (a) the
data-URL header is NOT stripped (the raw `block['data']` goes to the
codec) and (b) only the text-attached branch wraps the decode in
try/except; the explicit-image branch (lines 389-403) decodes bare, so
a failure propagates as an exception — modelled as `Except.error`. -/
def dgBlockUnits (dec : String → Bool) (cbs : List ContentBlock) (secIdx i : Nat)
    (b : ContentBlock) : Except String (List OutUnit) :=
  if b.type == some "text" && truthy b.content then
    Except.ok (OutUnit.bodyPara (b.content.getD "") ::
      (if truthy b.data && truthy b.caption then
        (if dec (b.data.getD "") then
          [OutUnit.figureImage (b.data.getD ""),
           OutUnit.figCaption
             (capNum secIdx ((cbs.take (i+1)).countP isImgOrTextData)
               (b.caption.getD ""))]
         else [])
       else []))
  else if b.type == some "image" && truthy b.data && truthy b.caption then
    (if dec (b.data.getD "") then
      Except.ok
        [OutUnit.figureImage (b.data.getD ""),
         OutUnit.figCaption
           (capNum secIdx ((cbs.take (i+1)).countP isImgType)
             (b.caption.getD ""))]
     else Except.error "binascii.Error: invalid base64-encoded string")
  else Except.ok []

/-- The block loop of `document_generator.add_section`; the first
uncaught exception aborts it. -/
def dgBlocksGo (dec : String → Bool) (cbs : List ContentBlock) (secIdx : Nat) :
    Nat → List ContentBlock → Except String (List OutUnit)
  | _, [] => Except.ok []
  | i, b :: rest =>
      match dgBlockUnits dec cbs secIdx i b with
      | Except.error e => Except.error e
      | Except.ok us =>
          match dgBlocksGo dec cbs secIdx (i+1) rest with
          | Except.error e => Except.error e
          | Except.ok vs => Except.ok (us ++ vs)

/-- `document_generator.add_section` (lines 332-441): optional heading,
the `contentBlocks` loop (this file reads only the primary key), then
flat subsections (same emission as `IeeeGenFixed.subUnits`: heading
`"<sec>.<j> <title>"` at level 2, then the content paragraph). -/
def dgAddSection (dec : String → Bool) (s : Sec) (secIdx : Nat) :
    Except String (List OutUnit) :=
  match dgBlocksGo dec (s.contentBlocks.getD []) secIdx 0 (s.contentBlocks.getD []) with
  | Except.error e => Except.error e
  | Except.ok us =>
      Except.ok
        ((if truthy s.title then
            [OutUnit.heading 1 (toString secIdx ++ ". " ++ pyUpper (s.title.getD ""))]
          else [])
         ++ us ++ IeeeGenFixed.subsGo secIdx 1 s.subsections)

end DocumentGenerator

namespace GeneratePdf

/-- A subsection dict as consumed by `api/generate-pdf.py`: `id` is
accessed unconditionally (`subsection['id']`), `level` defaults to 1,
`parentId` is tested for truthiness at level 1 and compared by value
when matching children.  The `contentBlocks` branch of
`add_nested_subsection` calls `process_content_block`, a name that is
undefined in the module (a `NameError` at runtime); the embedding
covers subsections without content blocks. -/
structure Subsec where
  id : String
  title : Option String := none
  content : Option String := none
  level : Option Nat := none
  parentId : Option String := none
deriving DecidableEq

/-- `s.get('level', 1)`. -/
def levelD (s : Subsec) : Nat := s.level.getD 1

/-- `[s for s in all_subsections if s.get('parentId') == parent_id and
s.get('level', 1) == level]`. -/
def children (subs : List Subsec) (pid : String) (level : Nat) : List Subsec :=
  subs.filter (fun s => s.parentId == some pid && levelD s == level)

/-- The child loop of `add_nested_subsection`: 1-based numbering
`<parent>.<j>`, heading at docx level `min(level+1, 6)` when the title
is truthy, the (doubly sanitised) content paragraph when truthy, then
the recursive descent `recur` supplied by the caller. -/
def nestedLoop (san : String → String) (pn : String) (level : Nat)
    (recur : String → String → List OutUnit) : Nat → List Subsec → List OutUnit
  | _, [] => []
  | j, c :: rest =>
      (if truthy c.title then
        [OutUnit.heading (min (level+1) 6)
          (pn ++ "." ++ toString j ++ " " ++ san (c.title.getD ""))]
       else [])
      ++ (if truthy c.content then
          [OutUnit.bodyPara (san (san (c.content.getD "")))]
         else [])
      ++ recur c.id (pn ++ "." ++ toString j)
      ++ nestedLoop san pn level recur (j+1) rest

/-- `add_nested_subsection` (api/generate-pdf.py lines 685-721).  The
source recurses unboundedly in syntax but guards every recursive call
with `level < 5` while passing `level + 1`, so the recursion depth
from level `l` is at most `6 - l`; the embedding makes that measure
explicit as structural fuel.  `gpAddNested_stable` (below) proves the
result is the same for every fuel of at least `6 - level`, so the
fuel-4 entry point used from level 2 computes the source's function. -/
def addNested (san : String → String) (subs : List Subsec) :
    Nat → String → String → Nat → List OutUnit
  | 0, _, _, _ => []
  | fuel+1, pid, pn, level =>
      nestedLoop san pn level
        (fun cid cnum => if level < 5 then addNested san subs fuel cid cnum (level+1) else [])
        1 (children subs pid level)

/-- The level-1 loop of `add_subsection_recursive`: subsections with
`level == 1` and falsy `parentId`, numbered `<sec>.<j>`, each followed
by its nested descendants starting at level 2. -/
def subsRecursiveGo (san : String → String) (subs : List Subsec) (secIdx : Nat) :
    Nat → List Subsec → List OutUnit
  | _, [] => []
  | j, s :: rest =>
      (if truthy s.title then
        [OutUnit.heading 2 (toString secIdx ++ "." ++ toString j ++ " " ++ san (s.title.getD ""))]
       else [])
      ++ (if truthy s.content then
          [OutUnit.bodyPara (san (san (s.content.getD "")))]
         else [])
      ++ addNested san subs 4 s.id (toString secIdx ++ "." ++ toString j) 2
      ++ subsRecursiveGo san subs secIdx (j+1) rest

/-- `add_subsection_recursive(section_data.get('subsections', []),
section_idx)`. -/
def addSubsectionsRecursive (san : String → String) (subs : List Subsec)
    (secIdx : Nat) : List OutUnit :=
  subsRecursiveGo san subs secIdx 1
    (subs.filter (fun s => levelD s == 1 && !truthy s.parentId))

/-- A section dict of `api/generate-pdf.py` (subsections carry ids and
parent links). -/
structure SecP where
  title : Option String := none
  contentBlocks : Option (List ContentBlock) := none
  content_blocks : Option (List ContentBlock) := none
  content : Option String := none
  subsections : List Subsec := []
deriving DecidableEq

/-- Same merged access as `getBlocks`. -/
def getBlocksP (s : SecP) : List ContentBlock :=
  let a := s.contentBlocks.getD []
  if a.isEmpty then s.content_blocks.getD [] else a

/-- Per-block emission of `generate-pdf.py`'s `add_section` (lines
505-640): as `IeeeGenFixed.blockUnits`, with captions sanitised; text
paragraphs go through `add_formatted_paragraph`, whose inline-HTML run
formatting is styling and not part of the unit model. -/
def blockUnits (san : String → String) (dec : String → Bool)
    (cbs : List ContentBlock) (secIdx i : Nat) (b : ContentBlock) : List OutUnit :=
  if b.type == some "text" && truthy b.content then
    OutUnit.bodyPara (b.content.getD "") ::
    (if truthy b.data && truthy b.caption then
      (let raw := stripDataUrl (b.data.getD "")
       if dec raw then
         [OutUnit.figureImage raw,
          OutUnit.figCaption
            (capNum secIdx ((cbs.take (i+1)).countP isImgOrTextData)
              (san (b.caption.getD "")))]
       else [])
     else [])
  else if b.type == some "image" && truthy b.data && truthy b.caption then
    (let raw := stripDataUrl (b.data.getD "")
     if dec raw then
       [OutUnit.figureImage raw,
        OutUnit.figCaption
          (capNum secIdx ((cbs.take (i+1)).countP isImgType)
            (san (b.caption.getD "")))]
     else [])
  else []

/-- The block loop. -/
def blocksGo (san : String → String) (dec : String → Bool)
    (cbs : List ContentBlock) (secIdx : Nat) : Nat → List ContentBlock → List OutUnit
  | _, [] => []
  | i, b :: rest => blockUnits san dec cbs secIdx i b ++ blocksGo san dec cbs secIdx (i+1) rest

/-- `generate-pdf.py`'s `add_section`: sanitised upper-cased heading,
blocks, legacy `content` fallback (sanitised by
`add_justified_paragraph`), then the recursive subsection walk. -/
def addSection (san : String → String) (dec : String → Bool) (s : SecP)
    (secIdx : Nat) : List OutUnit :=
  (if truthy s.title then
    [OutUnit.heading 1 (toString secIdx ++ ". " ++ pyUpper (san (s.title.getD "")))]
   else [])
  ++ blocksGo san dec (getBlocksP s) secIdx 0 (getBlocksP s)
  ++ (if (getBlocksP s).isEmpty && truthy s.content then
      [OutUnit.bodyPara (san (s.content.getD ""))]
     else [])
  ++ addSubsectionsRecursive san s.subsections secIdx

/-- Author detail paragraphs (sanitised). -/
def detailsGo (san : String → String) : List (Option String) → List OutUnit
  | [] => []
  | f :: rest =>
      (if truthy f then [OutUnit.authorDetail (san (f.getD ""))] else []) ++ detailsGo san rest

/-- Custom-field paragraphs (sanitised). -/
def customsGo (san : String → String) : List String → List OutUnit
  | [] => []
  | v :: rest =>
      (if v != "" then [OutUnit.authorDetail (san v)] else []) ++ customsGo san rest

/-- One author cell (`author['name']` is added unsanitised). -/
def authorUnits (san : String → String) (a : Author) : List OutUnit :=
  if truthy a.name then
    OutUnit.authorName (a.name.getD "") ::
      (detailsGo san [a.department, a.organization, a.city, a.state, a.tamilnadu]
       ++ customsGo san a.custom_fields)
  else []

/-- Author cells in order. -/
def authorsGo (san : String → String) : List Author → List OutUnit
  | [] => []
  | a :: rest => authorUnits san a ++ authorsGo san rest

/-- `add_authors`. -/
def addAuthors (san : String → String) (authors : List Author) : List OutUnit :=
  if authors.isEmpty then [] else authorsGo san authors ++ [OutUnit.emptyPara]

/-- `add_abstract` (bold `Abstract—` variant). -/
def addAbstract (san : String → String) (a : String) : List OutUnit :=
  if a != "" then [OutUnit.abstractPara (san a)] else []

/-- `add_keywords` (bold `Keywords—` variant, with the stabilising
dummy paragraph). -/
def addKeywords (san : String → String) (k : String) : List OutUnit :=
  if k != "" then
    [OutUnit.keywordsPara ("Keywords—" ++ san k), OutUnit.emptyPara]
  else []

/-- Reference entries: `f"[{idx}] {sanitize_text(ref)}"`; the source
stringifies the raw JSON entry, so the embedding takes references as
already-stringified values, with no per-entry truthiness filter. -/
def refsGo (san : String → String) : Nat → List String → List OutUnit
  | _, [] => []
  | n, r :: rest =>
      OutUnit.referenceEntry ("[" ++ toString n ++ "] " ++ san r) :: refsGo san (n+1) rest

/-- `add_references` of `generate-pdf.py`. -/
def addReferences (san : String → String) (refs : List String) : List OutUnit :=
  if refs.isEmpty then [] else OutUnit.heading 1 "REFERENCES" :: refsGo san 1 refs

/-- The section loop. -/
def secsGo (san : String → String) (dec : String → Bool) : Nat → List SecP → List OutUnit
  | _, [] => []
  | j, s :: rest => addSection san dec s j ++ secsGo san dec (j+1) rest

/-- The request body as consumed by `api/generate-pdf.py`. -/
structure ReqP where
  title : Option String := none
  authors : List Author := []
  abstract : Option String := none
  keywords : Option String := none
  sections : List SecP := []
  references : List String := []
deriving DecidableEq

/-- `generate_ieee_document` of `api/generate-pdf.py` (lines 795-861):
title and authors, then the continuous two-column break, and only THEN
abstract and keywords ("Now add abstract and keywords in the properly
configured 2-column layout"), followed by sections and references. -/
def generate (san : String → String) (dec : String → Bool) (d : ReqP) : List OutUnit :=
  OutUnit.titlePara (san (d.title.getD "")) ::
    (addAuthors san d.authors
     ++ OutUnit.columnBreak true 2 true true ::
        (addAbstract san (d.abstract.getD "")
         ++ addKeywords san (d.keywords.getD "")
         ++ secsGo san dec 1 d.sections
         ++ addReferences san d.references))

end GeneratePdf

namespace PdfIdentical

/-- `process_image_block` (pdf_generator_identical.py lines 203-250):
strip the data-URL header, decode, emit image and `Fig. <idx>.<n>`
caption; any failure is caught and replaced by an error-placeholder
paragraph (no caption). -/
def imageBlockUnits (dec : String → Bool) (secIdx n : Nat) (b : ContentBlock) :
    List OutUnit :=
  let raw := stripDataUrl (b.data.getD "")
  if dec raw then
    [OutUnit.figureImage raw, OutUnit.figCaption (capNum secIdx n (b.caption.getD ""))]
  else [OutUnit.imageErrorNote]

/-- The block loop of `add_sections` (lines 253-271): a per-section
running counter `img_count`, incremented only for explicit `image`
blocks with truthy `data` and `caption`; text blocks never attach
images in this backend. -/
def blocksGo (dec : String → Bool) (secIdx : Nat) : Nat → List ContentBlock → List OutUnit
  | _, [] => []
  | n, b :: rest =>
      if b.type == some "text" && truthy b.content then
        OutUnit.bodyPara (b.content.getD "") :: blocksGo dec secIdx n rest
      else if b.type == some "image" && truthy b.data && truthy b.caption then
        imageBlockUnits dec secIdx (n+1) b ++ blocksGo dec secIdx (n+1) rest
      else blocksGo dec secIdx n rest

/-- One section of `add_sections`: heading, blocks with the running
counter from 0, legacy `content` fallback, then flat subsections
(emission identical to `IeeeGenFixed.subUnits`). -/
def sectionUnits (dec : String → Bool) (s : Sec) (secIdx : Nat) : List OutUnit :=
  (if truthy s.title then
    [OutUnit.heading 1 (toString secIdx ++ ". " ++ pyUpper (s.title.getD ""))]
   else [])
  ++ blocksGo dec secIdx 0 (getBlocks s)
  ++ (if (getBlocks s).isEmpty && truthy s.content then
      [OutUnit.bodyPara (s.content.getD "")]
     else [])
  ++ IeeeGenFixed.subsGo secIdx 1 s.subsections

/-- The section loop (`enumerate(sections, 1)`). -/
def addSectionsGo (dec : String → Bool) : Nat → List Sec → List OutUnit
  | _, [] => []
  | j, s :: rest => sectionUnits dec s j ++ addSectionsGo dec (j+1) rest

/-- `add_sections` of `pdf_generator_identical.py`. -/
def addSections (dec : String → Bool) (secs : List Sec) : List OutUnit :=
  addSectionsGo dec 1 secs

end PdfIdentical

namespace Handlers

/-- A handler outcome: a structured client error, or a generated
document (byte serialisation and PDF conversion are downstream
collaborators). -/
inductive HandlerResult where
  | clientError (status : Nat) (msg : String)
  | generated (units : List OutUnit)
deriving DecidableEq

/-- The validation prologue shared verbatim by
`api/generate/ieee_pdf_correct.py` (handler, lines 322-334) and
`api/generate/pdf-preview.py` (do_POST, lines 35-42): reject a falsy
title, then an empty author list or one with no truthy name, each with
a 400 and a field-naming message. -/
def validate (d : DocumentRequest) : Option (Nat × String) :=
  if !truthy d.title then some (400, "Document title is required")
  else if d.authors.isEmpty || !(d.authors.any (fun a => truthy a.name)) then
    some (400, "At least one author is required")
  else none

/-- `pdf-preview.py`'s `do_POST` after JSON parsing: validate, then
invoke `ieee_generator_fixed.generate_ieee_document`. -/
def pdfPreviewPost (dec : String → Bool) (d : DocumentRequest) : HandlerResult :=
  match validate d with
  | some (s, m) => HandlerResult.clientError s m
  | none => HandlerResult.generated (IeeeGenFixed.generate dec d)

end Handlers


/-! ## Caption-numbering vocabulary -/

/-- A block is well-imaged for decode oracle `dec`: an explicit image
block carries truthy data and caption and its (stripped) payload
decodes, and a text block carries no attached image data. -/
def goodBlock (dec : String → Bool) (b : ContentBlock) : Prop :=
  (b.type = some "image" →
    truthy b.data = true ∧ truthy b.caption = true
    ∧ dec (stripDataUrl (b.data.getD "")) = true)
  ∧ (b.type = some "text" → truthy b.data = false)

instance (dec : String → Bool) (b : ContentBlock) : Decidable (goodBlock dec b) := by
  unfold goodBlock
  infer_instance

/-- The caption sequence of a block list under a running counter
starting at `a`: each explicit image block gets the next number. -/
def canonicalCaps (secIdx : Nat) : Nat → List ContentBlock → List String
  | _, [] => []
  | a, b :: rest =>
      if isImgType b then
        capNum secIdx (a+1) (b.caption.getD "") :: canonicalCaps secIdx (a+1) rest
      else canonicalCaps secIdx a rest

/-- Consecutive numbering of an (already filtered) image-block list. -/
def capsFromList (secIdx : Nat) : Nat → List ContentBlock → List String
  | _, [] => []
  | a, b :: rest => capNum secIdx (a+1) (b.caption.getD "") :: capsFromList secIdx (a+1) rest


/-! ## Phase classification vocabulary -/

/-- Is the unit a column-layout section break? -/
def isColBreak : OutUnit → Bool
  | OutUnit.columnBreak _ _ _ _ => true
  | _ => false

/-- Units belonging to the single-column front matter (title, author
table, abstract, keywords, spacing paragraphs). -/
def isFrontUnit : OutUnit → Bool
  | OutUnit.titlePara _ => true
  | OutUnit.authorName _ => true
  | OutUnit.authorDetail _ => true
  | OutUnit.emptyPara => true
  | OutUnit.abstractPara _ => true
  | OutUnit.keywordsPara _ => true
  | _ => false

/-- Units belonging to the two-column body (sections, figures,
references). -/
def isBodyUnit : OutUnit → Bool
  | OutUnit.heading _ _ => true
  | OutUnit.bodyPara _ => true
  | OutUnit.figureImage _ => true
  | OutUnit.figCaption _ => true
  | OutUnit.referenceEntry _ => true
  | OutUnit.imageErrorNote => true
  | _ => false

/-- Units `api/generate-pdf.py` emits before its break: title and
author table only. -/
def isPrePdfUnit : OutUnit → Bool
  | OutUnit.titlePara _ => true
  | OutUnit.authorName _ => true
  | OutUnit.authorDetail _ => true
  | OutUnit.emptyPara => true
  | _ => false

/-- Is the unit a level-1 (section) heading paragraph? -/
def isHeading1 : OutUnit → Bool
  | OutUnit.heading l _ => l == 1
  | _ => false

/-- The units emitted before the first layout break. -/
def beforeBreak (us : List OutUnit) : List OutUnit :=
  us.takeWhile (fun u => !isColBreak u)

/-- The units emitted after the first layout break. -/
def afterBreak (us : List OutUnit) : List OutUnit :=
  (us.dropWhile (fun u => !isColBreak u)).drop 1

/-! ## Concrete inputs used in closed instances -/

/-- An author with only a name. -/
def anAuthor (n : String) : Author := ⟨some n, none, none, none, none, none, []⟩

/-- A plain text block. -/
def textBlock (c : String) : ContentBlock := ⟨some "text", some c, none, none, none⟩

/-- An explicit image block. -/
def imageBlock (dat cap : String) : ContentBlock := ⟨some "image", none, some dat, some cap, none⟩

/-- A text block carrying attached image data (React frontend
pattern). -/
def textImageBlock (c dat cap : String) : ContentBlock :=
  ⟨some "text", some c, some dat, some cap, none⟩

/-- The example-scenario request of the spec's testable properties. -/
def c5Doc : DocumentRequest :=
  ⟨some "T", [anAuthor "A"], none, none,
   [⟨some "Intro", some [textBlock "Hello"], none, none, []⟩], [⟨some "Ref 1"⟩]⟩

/-- A section whose only block is an explicit image with malformed
base64 data and a valid caption. -/
def c1BadSec : Sec := ⟨none, some [imageBlock "not-base64!!" "A caption"], none, none, []⟩

/-- A section mixing a text block with attached image data and two
explicit image blocks. -/
def c2MixSec : Sec :=
  ⟨none, some [textImageBlock "t" "AAAA" "c1", imageBlock "AAAA" "c2", imageBlock "AAAA" "c3"],
   none, none, []⟩

/-- A section with exactly three explicit image blocks interleaved
with plain text blocks. -/
def c2ImgSec : Sec :=
  ⟨some "Results",
   some [textBlock "intro", imageBlock "AAAA" "one", imageBlock "BBBB" "two",
         textBlock "middle", imageBlock "CCCC" "three"],
   none, none, []⟩

/-- A single-section list whose only block is a text block with an
attached image. -/
def c8Secs : List Sec :=
  [⟨none, some [textImageBlock "t" "AAAA" "c"], none, none, []⟩]

/-- A chain of seven subsections linked via `parentId`, with level
fields 1..7. -/
def chain7 : List GeneratePdf.Subsec :=
  [⟨"s1", some "T1", none, some 1, none⟩,
   ⟨"s2", some "T2", none, some 2, some "s1"⟩,
   ⟨"s3", some "T3", none, some 3, some "s2"⟩,
   ⟨"s4", some "T4", none, some 4, some "s3"⟩,
   ⟨"s5", some "T5", none, some 5, some "s4"⟩,
   ⟨"s6", some "T6", none, some 6, some "s5"⟩,
   ⟨"s7", some "T7", none, some 7, some "s6"⟩]

/-- A request for `api/generate-pdf.py` with non-empty abstract and
keywords and no sections or references. -/
def c4PdfDoc : GeneratePdf.ReqP := ⟨some "T", [anAuthor "A"], some "X", some "K", [], []⟩

/-- A section with an empty block list and non-empty legacy
`content`. -/
def c3LegacySec : Sec := ⟨some "Old", none, none, some "Legacy body", []⟩

/-- A section carrying both content blocks and legacy `content`. -/
def c3BothSec : Sec := ⟨some "Both", some [textBlock "New"], none, some "Old body", []⟩

/-- A request with no title. -/
def c7NoTitleDoc : DocumentRequest := ⟨none, [anAuthor "A"], none, none, [], []⟩

/-- An untitled section that still has a block and a subsection. -/
def c10Sec : Sec :=
  ⟨none, some [textBlock "body"], none, none, [⟨some "Sub", some "subbody"⟩]⟩

/-- A two-section request whose image-bearing blocks are all explicit
image blocks. -/
def c8GoodDoc : DocumentRequest :=
  ⟨some "T", [anAuthor "A"], none, none,
   [⟨some "S", some [imageBlock "AAAA" "pic"], none, none, []⟩,
    ⟨none, some [imageBlock "BBBB" "pic2"], none, none, []⟩], []⟩

/-- The identity sanitiser (ASCII text is a fixed point of
`sanitize_text`). -/
def idSan : String → String := fun s => s

/-- Did the `Except`-modelled emitter complete without raising? -/
def isOkResult : Except String (List OutUnit) → Bool
  | Except.ok _ => true
  | Except.error _ => false

/-! ## Generic list helpers -/

/-- `(pre ++ b :: rest).take (pre.length + 1) = pre ++ [b]`: the prefix
the figure counters range over. -/
theorem take_append_cons {α : Type} :
    ∀ (pre : List α) (b : α) (rest : List α),
      (pre ++ b :: rest).take (pre.length + 1) = pre ++ [b] := by
  intro pre
  induction pre with
  | nil => intro b rest; rfl
  | cons a pre ih =>
      intro b rest
      simp only [List.cons_append, List.length_cons, List.take_succ_cons, ih]

/-- A list all of whose elements fail `p` contributes no `p`-count. -/
theorem countP_zero_of_all_not {α : Type} (p : α → Bool) :
    ∀ l : List α, l.all (fun u => !p u) = true → l.countP p = 0 := by
  intro l
  induction l with
  | nil => intro _; rfl
  | cons a l ih =>
      intro h
      rw [List.all_cons, Bool.and_eq_true] at h
      rw [List.countP_cons]
      have hpa : p a = false := by
        cases hpa : p a
        · rfl
        · rw [hpa] at h; exact absurd h.1 (by decide)
      simp [ih h.2, hpa]

/-- `captionsOf` distributes over append. -/
theorem captionsOf_append :
    ∀ l r : List OutUnit, captionsOf (l ++ r) = captionsOf l ++ captionsOf r := by
  intro l r
  induction l with
  | nil => rfl
  | cons u l ih => cases u <;> simp [captionsOf, ih]

/-- `all (fun a => !p a)` is the negation of `any p`. -/
theorem all_not_eq_not_any {α : Type} (p : α → Bool) :
    ∀ l : List α, l.all (fun a => !p a) = !(l.any p) := by
  intro l
  induction l with
  | nil => rfl
  | cons a l ih => simp [List.all_cons, List.any_cons, ih]

/-- `takeWhile`/`dropWhile` across a first hit: the prefix of misses is
kept, the hit and everything after is dropped to. -/
theorem takeWhile_dropWhile_break (p : OutUnit → Bool) :
    ∀ (l : List OutUnit) (x : OutUnit) (r : List OutUnit),
      l.all (fun u => !p u) = true → p x = true →
      ((l ++ x :: r).takeWhile (fun u => !p u) = l
       ∧ (l ++ x :: r).dropWhile (fun u => !p u) = x :: r) := by
  intro l
  induction l with
  | nil =>
      intro x r _ hx
      constructor
      · simp [List.takeWhile_cons, hx]
      · simp [List.dropWhile_cons, hx]
  | cons a l ih =>
      intro x r h hx
      rw [List.all_cons, Bool.and_eq_true] at h
      have ha : p a = false := by
        cases hpa : p a
        · rfl
        · rw [hpa] at h; exact absurd h.1 (by decide)
      have := ih x r h.2 hx
      constructor
      · simp [List.takeWhile_cons, ha, this.1]
      · simp [List.dropWhile_cons, ha, this.2]

/-! ## Splitting lemmas for the `ieee_generator_fixed` loops -/

namespace IeeeGenFixed

/-- The block loop splits over append (the whole-list argument `cbs`
used by the counters is untouched). -/
theorem blocksGo_append (dec : String → Bool) (cbs : List ContentBlock) (secIdx : Nat) :
    ∀ (pre post : List ContentBlock) (i : Nat),
      blocksGo dec cbs secIdx i (pre ++ post)
        = blocksGo dec cbs secIdx i pre ++ blocksGo dec cbs secIdx (i + pre.length) post := by
  intro pre
  induction pre with
  | nil => intro post i; simp [blocksGo]
  | cons b pre ih =>
      intro post i
      simp only [List.cons_append, blocksGo, List.length_cons, List.append_eq]
      rw [ih post (i+1)]
      have h : i + 1 + pre.length = i + (pre.length + 1) := by omega
      rw [h, List.append_assoc]

/-- The section loop splits around a distinguished section, which is
numbered by its position. -/
theorem secsGo_split (dec : String → Bool) :
    ∀ (pre : List Sec) (s : Sec) (post : List Sec) (j : Nat),
      secsGo dec j (pre ++ s :: post)
        = secsGo dec j pre ++ addSection dec s (j + pre.length)
          ++ secsGo dec (j + pre.length + 1) post := by
  intro pre
  induction pre with
  | nil => intro s post j; simp [secsGo]
  | cons a pre ih =>
      intro s post j
      simp only [List.cons_append, secsGo, List.length_cons, List.append_eq]
      rw [ih s post (j+1)]
      have h1 : j + 1 + pre.length = j + (pre.length + 1) := by omega
      rw [h1]
      simp only [List.append_assoc]

/-- The reference loop splits around a distinguished entry, which is
numbered by its position. -/
theorem refsGo_split :
    ∀ (pre : List Reference) (r : Reference) (post : List Reference) (n : Nat),
      refsGo n (pre ++ r :: post)
        = refsGo n pre
          ++ (if truthy r.text then
              [OutUnit.referenceEntry ("[" ++ toString (n + pre.length) ++ "] " ++ r.text.getD "")]
             else [])
          ++ refsGo (n + pre.length + 1) post := by
  intro pre
  induction pre with
  | nil => intro r post n; simp [refsGo]
  | cons a pre ih =>
      intro r post n
      simp only [List.cons_append, refsGo, List.length_cons, List.append_eq]
      rw [ih r post (n+1)]
      have h1 : n + 1 + pre.length = n + (pre.length + 1) := by omega
      rw [h1]
      simp only [List.append_assoc]

end IeeeGenFixed

/-! ## Caption numbering -/

/-- `canonicalCaps` numbers exactly the `isImgType` sublist. -/
theorem canonicalCaps_eq_capsFromList (secIdx : Nat) :
    ∀ (l : List ContentBlock) (a : Nat),
      canonicalCaps secIdx a l = capsFromList secIdx a (l.filter isImgType) := by
  intro l
  induction l with
  | nil => intro a; rfl
  | cons b rest ih =>
      intro a
      cases hb : isImgType b
      · simp [canonicalCaps, List.filter_cons, hb, ih]
      · simp [canonicalCaps, List.filter_cons, hb, ih, capsFromList]

namespace IeeeGenFixed

/-- Master caption lemma for the fixed generator: under `goodBlock`
hypotheses, the block loop running over the suffix `rest` of
`pre ++ rest` yields the canonical consecutive numbering continuing
from the explicit-image count of `pre`. -/
theorem blocksGo_captions (dec : String → Bool) (secIdx : Nat) :
    ∀ (rest pre : List ContentBlock),
      (∀ b ∈ rest, goodBlock dec b) →
      captionsOf (blocksGo dec (pre ++ rest) secIdx pre.length rest)
        = canonicalCaps secIdx (pre.countP isImgType) rest := by
  intro rest
  induction rest with
  | nil => intro pre _; simp [blocksGo, canonicalCaps, captionsOf]
  | cons b rest ih =>
      intro pre h
      have hb : goodBlock dec b := h b (List.mem_cons_self _ _)
      have hrest : ∀ x ∈ rest, goodBlock dec x := fun x hx => h x (List.mem_cons_of_mem _ hx)
      have htail0 := ih (pre ++ [b]) hrest
      rw [List.append_assoc] at htail0
      have hlen : (pre ++ [b]).length = pre.length + 1 := by simp
      rw [hlen] at htail0
      have hcons : pre ++ ([b] ++ rest) = pre ++ b :: rest := by simp
      rw [hcons] at htail0
      rcases hb with ⟨hbi, hbt⟩
      rw [blocksGo, captionsOf_append, htail0]
      by_cases ht : b.type = some "text"
      · have hdata : truthy b.data = false := hbt ht
        have himg : isImgType b = false := by simp [isImgType, ht]
        have hcount : (pre ++ [b]).countP isImgType = pre.countP isImgType := by
          simp [List.countP_append, List.countP_cons, himg]
        rw [hcount]
        cases hc : truthy b.content
        · have : blockUnits dec (pre ++ b :: rest) secIdx pre.length b = [] := by
            simp [blockUnits, ht, hc]
          rw [this]
          simp [captionsOf, canonicalCaps, himg]
        · have : blockUnits dec (pre ++ b :: rest) secIdx pre.length b
              = [OutUnit.bodyPara (b.content.getD "")] := by
            simp [blockUnits, ht, hc, hdata]
          rw [this]
          simp [captionsOf, canonicalCaps, himg]
      · by_cases hi : b.type = some "image"
        · obtain ⟨hd, hcap, hdec⟩ := hbi hi
          have himg : isImgType b = true := by simp [isImgType, hi]
          have hcount : (pre ++ [b]).countP isImgType = pre.countP isImgType + 1 := by
            simp [List.countP_append, List.countP_cons, himg]
          rw [hcount]
          have htake := take_append_cons pre b rest
          have : blockUnits dec (pre ++ b :: rest) secIdx pre.length b
              = [OutUnit.figureImage (stripDataUrl (b.data.getD "")),
                 OutUnit.figCaption
                   (capNum secIdx (pre.countP isImgType + 1) (b.caption.getD ""))] := by
            have hnt : (b.type == some "text") = false := by
              simp [hi]
            simp only [blockUnits, hnt, Bool.false_and, Bool.false_eq_true, if_false]
            simp [hi, hd, hcap, hdec, htake, List.countP_append, List.countP_cons, himg]
          rw [this]
          simp [captionsOf, canonicalCaps, himg]
        · have himg : isImgType b = false := by
            simp [isImgType, hi]
          have hcount : (pre ++ [b]).countP isImgType = pre.countP isImgType := by
            simp [List.countP_append, List.countP_cons, himg]
          rw [hcount]
          have : blockUnits dec (pre ++ b :: rest) secIdx pre.length b = [] := by
            simp [blockUnits, ht, hi]
          rw [this]
          simp [captionsOf, canonicalCaps, himg]

end IeeeGenFixed

namespace PdfIdentical

/-- Master caption lemma for the PDF-native backend: its running
counter produces the same canonical numbering. -/
theorem piBlocksGo_captions (dec : String → Bool) (secIdx : Nat) :
    ∀ (rest : List ContentBlock) (n : Nat),
      (∀ b ∈ rest, goodBlock dec b) →
      captionsOf (blocksGo dec secIdx n rest) = canonicalCaps secIdx n rest := by
  intro rest
  induction rest with
  | nil => intro n _; rfl
  | cons b rest ih =>
      intro n h
      have hb : goodBlock dec b := h b (List.mem_cons_self _ _)
      have hrest : ∀ x ∈ rest, goodBlock dec x := fun x hx => h x (List.mem_cons_of_mem _ hx)
      rcases hb with ⟨hbi, hbt⟩
      by_cases ht : b.type = some "text"
      · have himg : isImgType b = false := by simp [isImgType, ht]
        cases hc : truthy b.content
        · have hnt : ¬(b.type == some "text" && truthy b.content) = true := by
            simp [ht, hc]
          have hni : ¬(b.type == some "image" && truthy b.data && truthy b.caption) = true := by
            simp [ht]
          rw [blocksGo, if_neg hnt, if_neg hni]
          simp [canonicalCaps, himg, ih n hrest]
        · have hyt : (b.type == some "text" && truthy b.content) = true := by
            simp [ht, hc]
          rw [blocksGo, if_pos hyt]
          simp [captionsOf, canonicalCaps, himg, ih n hrest]
      · by_cases hi : b.type = some "image"
        · obtain ⟨hd, hcap, hdec⟩ := hbi hi
          have himg : isImgType b = true := by simp [isImgType, hi]
          have hnt : ¬(b.type == some "text" && truthy b.content) = true := by
            simp [hi]
          have hyi : (b.type == some "image" && truthy b.data && truthy b.caption) = true := by
            simp [hi, hd, hcap]
          rw [blocksGo, if_neg hnt, if_pos hyi]
          simp [imageBlockUnits, hdec, captionsOf_append, captionsOf, canonicalCaps, himg,
                ih (n+1) hrest]
        · have himg : isImgType b = false := by simp [isImgType, hi]
          have hnt : ¬(b.type == some "text" && truthy b.content) = true := by
            simp [ht]
          have hni : ¬(b.type == some "image" && truthy b.data && truthy b.caption) = true := by
            simp [hi]
          rw [blocksGo, if_neg hnt, if_neg hni]
          simp [canonicalCaps, himg, ih n hrest]

end PdfIdentical

/-! ## Caption-free components -/

namespace IeeeGenFixed

theorem captionsOf_subUnits (secIdx j : Nat) (s : FlatSubsection) :
    captionsOf (subUnits secIdx j s) = [] := by
  unfold subUnits
  split_ifs <;> simp [captionsOf, captionsOf_append]

theorem captionsOf_subsGo (secIdx : Nat) :
    ∀ (l : List FlatSubsection) (j : Nat), captionsOf (subsGo secIdx j l) = [] := by
  intro l
  induction l with
  | nil => intro j; rfl
  | cons s l ih =>
      intro j
      rw [subsGo, captionsOf_append, captionsOf_subUnits, ih (j+1)]
      rfl

theorem captionsOf_refsGo : ∀ (l : List Reference) (n : Nat), captionsOf (refsGo n l) = [] := by
  intro l
  induction l with
  | nil => intro n; rfl
  | cons r l ih =>
      intro n
      rw [refsGo, captionsOf_append, ih (n+1)]
      split_ifs <;> simp [captionsOf]

theorem captionsOf_addReferences (refs : List Reference) :
    captionsOf (addReferences refs) = [] := by
  unfold addReferences
  split_ifs
  · rfl
  · rw [show captionsOf (OutUnit.heading 1 "REFERENCES" :: refsGo 1 refs)
          = captionsOf (refsGo 1 refs) from rfl]
    exact captionsOf_refsGo refs 1

theorem captionsOf_detailsGo : ∀ l : List (Option String), captionsOf (detailsGo l) = [] := by
  intro l
  induction l with
  | nil => rfl
  | cons f l ih =>
      rw [detailsGo, captionsOf_append, ih]
      split_ifs <;> simp [captionsOf]

theorem captionsOf_customsGo : ∀ l : List String, captionsOf (customsGo l) = [] := by
  intro l
  induction l with
  | nil => rfl
  | cons v l ih =>
      rw [customsGo, captionsOf_append, ih]
      split_ifs <;> simp [captionsOf]

theorem captionsOf_authorsGo : ∀ l : List Author, captionsOf (authorsGo l) = [] := by
  intro l
  induction l with
  | nil => rfl
  | cons a l ih =>
      rw [authorsGo, captionsOf_append, ih]
      unfold authorUnits
      split_ifs
      · rw [show captionsOf
              (OutUnit.authorName (a.name.getD "") ::
                (detailsGo [a.department, a.organization, a.city, a.state, a.tamilnadu]
                 ++ customsGo a.custom_fields))
            = captionsOf
                (detailsGo [a.department, a.organization, a.city, a.state, a.tamilnadu]
                 ++ customsGo a.custom_fields) from rfl]
        rw [captionsOf_append, captionsOf_detailsGo, captionsOf_customsGo]
        rfl
      · rfl

theorem captionsOf_phaseOne (d : DocumentRequest) : captionsOf (phaseOne d) = [] := by
  unfold phaseOne
  rw [show captionsOf
        (OutUnit.titlePara (d.title.getD "") ::
          (addAuthors d.authors ++ addAbstract (d.abstract.getD "")
           ++ addKeywords (d.keywords.getD "")))
      = captionsOf
          (addAuthors d.authors ++ addAbstract (d.abstract.getD "")
           ++ addKeywords (d.keywords.getD "")) from rfl]
  rw [captionsOf_append, captionsOf_append]
  unfold addAuthors addAbstract addKeywords
  split_ifs <;> simp [captionsOf, captionsOf_append, captionsOf_authorsGo]

/-- Per-section caption sequence of the fixed generator under
`goodBlock` hypotheses. -/
theorem addSection_captions (dec : String → Bool) (secIdx : Nat) (s : Sec)
    (h : ∀ b ∈ getBlocks s, goodBlock dec b) :
    captionsOf (addSection dec s secIdx) = canonicalCaps secIdx 0 (getBlocks s) := by
  unfold addSection sectionBlocks
  rw [captionsOf_append, captionsOf_append, captionsOf_append]
  have hmaster := blocksGo_captions dec secIdx (getBlocks s) [] h
  simp only [List.nil_append, List.length_nil, List.countP_nil] at hmaster
  rw [hmaster, captionsOf_subsGo]
  split_ifs <;> simp [captionsOf]

end IeeeGenFixed

namespace PdfIdentical

/-- Per-section caption sequence of the PDF-native backend under
`goodBlock` hypotheses. -/
theorem sectionUnits_captions (dec : String → Bool) (secIdx : Nat) (s : Sec)
    (h : ∀ b ∈ getBlocks s, goodBlock dec b) :
    captionsOf (sectionUnits dec s secIdx) = canonicalCaps secIdx 0 (getBlocks s) := by
  unfold sectionUnits
  rw [captionsOf_append, captionsOf_append, captionsOf_append]
  rw [piBlocksGo_captions dec secIdx (getBlocks s) 0 h, IeeeGenFixed.captionsOf_subsGo]
  split_ifs <;> simp [captionsOf]

end PdfIdentical

/-- The two backends' section loops agree on captions, section by
section, for any starting index. -/
theorem secsGo_captions_agree (dec : String → Bool) :
    ∀ (secs : List Sec) (j : Nat),
      (∀ s ∈ secs, ∀ b ∈ getBlocks s, goodBlock dec b) →
      captionsOf (IeeeGenFixed.secsGo dec j secs)
        = captionsOf (PdfIdentical.addSectionsGo dec j secs) := by
  intro secs
  induction secs with
  | nil => intro j _; rfl
  | cons s secs ih =>
      intro j h
      have hs : ∀ b ∈ getBlocks s, goodBlock dec b := h s (List.mem_cons_self _ _)
      have hrest : ∀ x ∈ secs, ∀ b ∈ getBlocks x, goodBlock dec b :=
        fun x hx => h x (List.mem_cons_of_mem _ hx)
      rw [IeeeGenFixed.secsGo, PdfIdentical.addSectionsGo,
          captionsOf_append, captionsOf_append,
          IeeeGenFixed.addSection_captions dec j s hs,
          PdfIdentical.sectionUnits_captions dec j s hs,
          ih (j+1) hrest]

/-! ## Heading-freeness helpers -/

namespace IeeeGenFixed

theorem blockUnits_no_heading1 (dec : String → Bool) (cbs : List ContentBlock)
    (secIdx i : Nat) (b : ContentBlock) :
    (blockUnits dec cbs secIdx i b).all (fun u => !isHeading1 u) = true := by
  unfold blockUnits
  split_ifs <;> simp [isHeading1]
  all_goals rintro x - (rfl | rfl) <;> rfl

theorem blocksGo_no_heading1 (dec : String → Bool) (cbs : List ContentBlock) (secIdx : Nat) :
    ∀ (l : List ContentBlock) (i : Nat),
      (blocksGo dec cbs secIdx i l).all (fun u => !isHeading1 u) = true := by
  intro l
  induction l with
  | nil => intro i; rfl
  | cons b l ih =>
      intro i
      rw [blocksGo, List.all_append, ih (i+1), blockUnits_no_heading1]
      rfl

theorem subsGo_no_heading1 (secIdx : Nat) :
    ∀ (l : List FlatSubsection) (j : Nat),
      (subsGo secIdx j l).all (fun u => !isHeading1 u) = true := by
  intro l
  induction l with
  | nil => intro j; rfl
  | cons s l ih =>
      intro j
      rw [subsGo, List.all_append, ih (j+1)]
      have : (subUnits secIdx j s).all (fun u => !isHeading1 u) = true := by
        unfold subUnits
        split_ifs <;> simp [isHeading1]
      rw [this]
      rfl

end IeeeGenFixed

/-! ## Claim theorems -/

/-- C5: for the request `{title:"T", authors:[{name:"A"}],
sections:[{title:"Intro", contentBlocks:[{type:"text",
content:"Hello"}]}], references:[{text:"Ref 1"}]}` the fixed generator
emits, in this order: title "T", author cell "A", heading "1. INTRO",
body paragraph "Hello", heading "REFERENCES" and entry "[1] Ref 1"
(the full output is computed exactly, and the claimed six units form a
subsequence of it in the claimed order). -/
theorem c5_example_scenario :
    IeeeGenFixed.generate pyB64DecodeOk c5Doc
      = [OutUnit.titlePara "T", OutUnit.authorName "A", OutUnit.emptyPara,
         OutUnit.columnBreak true 2 true true,
         OutUnit.heading 1 "1. INTRO", OutUnit.bodyPara "Hello",
         OutUnit.heading 1 "REFERENCES", OutUnit.referenceEntry "[1] Ref 1"]
    ∧ isSubseqOf
        [OutUnit.titlePara "T", OutUnit.authorName "A", OutUnit.heading 1 "1. INTRO",
         OutUnit.bodyPara "Hello", OutUnit.heading 1 "REFERENCES",
         OutUnit.referenceEntry "[1] Ref 1"]
        (IeeeGenFixed.generate pyB64DecodeOk c5Doc) = true :=
  ⟨by decide, by decide⟩

/-- C9: reference entries are numbered by their 1-based position in
the input list — a reference with truthy text at position
`n + pre.length` is rendered as `[<position>] <text>` no matter how
many earlier entries were skipped, and the concrete list
[{text:"A"}, {text:""}, {text:"B"}] renders exactly "[1] A" and
"[3] B" under the REFERENCES heading. -/
theorem c9_reference_positional_numbering :
    (∀ (n : Nat) (pre post : List Reference) (r : Reference),
       truthy r.text = true →
       IeeeGenFixed.refsGo n (pre ++ r :: post)
         = IeeeGenFixed.refsGo n pre
           ++ OutUnit.referenceEntry ("[" ++ toString (n + pre.length) ++ "] " ++ r.text.getD "")
             :: IeeeGenFixed.refsGo (n + pre.length + 1) post)
    ∧ IeeeGenFixed.addReferences [⟨some "A"⟩, ⟨some ""⟩, ⟨some "B"⟩]
        = [OutUnit.heading 1 "REFERENCES", OutUnit.referenceEntry "[1] A",
           OutUnit.referenceEntry "[3] B"] := by
  constructor
  · intro n pre post r hr
    rw [IeeeGenFixed.refsGo_split pre r post n, if_pos hr]
    simp
  · decide

/-- C9 witness: the general part applied at `n = 1`,
`pre = [{text:"A"}, {text:""}]`, `r = {text:"X"}`. -/
theorem c9_witness :
    truthy (Reference.mk (some "X")).text = true
    ∧ IeeeGenFixed.refsGo 1
        ([Reference.mk (some "A"), Reference.mk (some "")] ++ Reference.mk (some "X") :: [])
        = IeeeGenFixed.refsGo 1 [Reference.mk (some "A"), Reference.mk (some "")]
          ++ OutUnit.referenceEntry
              ("[" ++ toString (1 + [Reference.mk (some "A"), Reference.mk (some "")].length)
               ++ "] " ++ (Reference.mk (some "X")).text.getD "")
            :: IeeeGenFixed.refsGo
                (1 + [Reference.mk (some "A"), Reference.mk (some "")].length + 1) [] :=
  ⟨by decide,
   c9_reference_positional_numbering.1 1 [Reference.mk (some "A"), Reference.mk (some "")]
     [] (Reference.mk (some "X")) (by decide)⟩

/-- C3: a section whose merged block list is empty but whose legacy
`content` is non-empty renders exactly one body paragraph equal to
`content` (besides its optional heading; stated for sections without
subsections, which render after the section body); a section with a
non-empty block list renders identically whether or not the legacy
`content` field is present — the two representations are never both
rendered. -/
theorem c3_legacy_content_fallback :
    (∀ (dec : String → Bool) (secIdx : Nat) (s : Sec),
       getBlocks s = [] → truthy s.content = true → s.subsections = [] →
       IeeeGenFixed.addSection dec s secIdx
         = (if truthy s.title then
             [OutUnit.heading 1 (toString secIdx ++ ". " ++ pyUpper (s.title.getD ""))]
            else [])
           ++ [OutUnit.bodyPara (s.content.getD "")])
    ∧ (∀ (dec : String → Bool) (secIdx : Nat) (s : Sec),
       getBlocks s ≠ [] →
       IeeeGenFixed.addSection dec s secIdx
         = IeeeGenFixed.addSection dec (clearContent s) secIdx) := by
  constructor
  · intro dec secIdx s hb hc hsub
    unfold IeeeGenFixed.addSection IeeeGenFixed.sectionBlocks
    rw [hb, hsub]
    simp [IeeeGenFixed.blocksGo, IeeeGenFixed.subsGo, hc]
  · intro dec secIdx s hb
    have hne : (getBlocks s).isEmpty = false := by
      cases hgbs : getBlocks s
      · exact absurd hgbs hb
      · rfl
    unfold IeeeGenFixed.addSection IeeeGenFixed.sectionBlocks
    have h1 : getBlocks (clearContent s) = getBlocks s := rfl
    have h2 : (clearContent s).title = s.title := rfl
    have h3 : (clearContent s).subsections = s.subsections := rfl
    have h4 : (clearContent s).content = none := rfl
    rw [h1, h2, h3, h4, hne]
    simp

/-- C3 witness: the two parts at the concrete sections `c3LegacySec`
(empty blocks, legacy content) and `c3BothSec` (both present). -/
theorem c3_witness :
    (getBlocks c3LegacySec = [] ∧ truthy c3LegacySec.content = true
     ∧ c3LegacySec.subsections = []
     ∧ IeeeGenFixed.addSection pyB64DecodeOk c3LegacySec 1
         = (if truthy c3LegacySec.title then
             [OutUnit.heading 1 (toString 1 ++ ". " ++ pyUpper (c3LegacySec.title.getD ""))]
            else [])
           ++ [OutUnit.bodyPara (c3LegacySec.content.getD "")])
    ∧ (getBlocks c3BothSec ≠ []
       ∧ IeeeGenFixed.addSection pyB64DecodeOk c3BothSec 1
           = IeeeGenFixed.addSection pyB64DecodeOk (clearContent c3BothSec) 1) :=
  ⟨⟨by decide, by decide, by decide,
    c3_legacy_content_fallback.1 pyB64DecodeOk 1 c3LegacySec (by decide) (by decide) (by decide)⟩,
   ⟨by decide, c3_legacy_content_fallback.2 pyB64DecodeOk 1 c3BothSec (by decide)⟩⟩

/-- C7: a request whose title is falsy, or whose author list is empty
or contains no author with a truthy name, gets a structured 400 client
error naming the missing field, and the generator is never invoked
(the handler result is never `generated`). -/
theorem c7_validation_rejects :
    ∀ (dec : String → Bool) (d : DocumentRequest),
      (truthy d.title = false ∨ d.authors.all (fun a => !truthy a.name) = true) →
      (Handlers.pdfPreviewPost dec d
         = Handlers.HandlerResult.clientError 400 "Document title is required"
       ∨ Handlers.pdfPreviewPost dec d
         = Handlers.HandlerResult.clientError 400 "At least one author is required")
      ∧ ∀ us, Handlers.pdfPreviewPost dec d ≠ Handlers.HandlerResult.generated us := by
  intro dec d h
  unfold Handlers.pdfPreviewPost Handlers.validate
  cases htitle : truthy d.title
  · exact ⟨Or.inl (by simp), fun us => by simp⟩
  · have hall : d.authors.all (fun a => !truthy a.name) = true := by
      rcases h with h | h
      · rw [htitle] at h
        exact absurd h (by decide)
      · exact h
    have hany : d.authors.any (fun a => truthy a.name) = false := by
      have he := all_not_eq_not_any (fun a => truthy a.name) d.authors
      rw [hall] at he
      cases hx : d.authors.any (fun a => truthy a.name)
      · rfl
      · rw [hx] at he
        exact absurd he (by decide)
    refine ⟨Or.inr (by simp [hany]), fun us => by simp [hany]⟩

/-- C7 witness: a request with no title is rejected with a 400. -/
theorem c7_witness :
    (truthy c7NoTitleDoc.title = false
     ∨ c7NoTitleDoc.authors.all (fun a => !truthy a.name) = true)
    ∧ (Handlers.pdfPreviewPost pyB64DecodeOk c7NoTitleDoc
         = Handlers.HandlerResult.clientError 400 "Document title is required"
       ∨ Handlers.pdfPreviewPost pyB64DecodeOk c7NoTitleDoc
         = Handlers.HandlerResult.clientError 400 "At least one author is required") :=
  ⟨Or.inl (by decide),
   (c7_validation_rejects pyB64DecodeOk c7NoTitleDoc (Or.inl (by decide))).1⟩

/-- C10: a section with falsy title emits no level-1 heading paragraph
but everything else unchanged: (1) none of its units is a level-1
heading; (2) giving the same section a non-empty title prepends
exactly the heading `"<idx>. <TITLE>"` and changes nothing else
(contents, subsections and figure numbering keep the same index);
(3) in the document loop an untitled section still consumes its
1-based positional index, and the following sections continue from the
next index. -/
theorem c10_untitled_section :
    (∀ (dec : String → Bool) (secIdx : Nat) (s : Sec), truthy s.title = false →
       (IeeeGenFixed.addSection dec s secIdx).all (fun u => !isHeading1 u) = true)
    ∧ (∀ (dec : String → Bool) (secIdx : Nat) (s : Sec) (t : String),
       truthy s.title = false → t ≠ "" →
       IeeeGenFixed.addSection dec (setTitle s t) secIdx
         = OutUnit.heading 1 (toString secIdx ++ ". " ++ pyUpper t)
             :: IeeeGenFixed.addSection dec s secIdx)
    ∧ (∀ (dec : String → Bool) (j : Nat) (pre post : List Sec) (s : Sec),
       truthy s.title = false →
       IeeeGenFixed.secsGo dec j (pre ++ s :: post)
         = IeeeGenFixed.secsGo dec j pre ++ IeeeGenFixed.addSection dec s (j + pre.length)
           ++ IeeeGenFixed.secsGo dec (j + pre.length + 1) post) := by
  refine ⟨?_, ?_, ?_⟩
  · intro dec secIdx s h
    unfold IeeeGenFixed.addSection IeeeGenFixed.sectionBlocks
    rw [h]
    simp only [if_neg (by decide : ¬false = true), List.nil_append, List.all_append]
    rw [IeeeGenFixed.blocksGo_no_heading1, IeeeGenFixed.subsGo_no_heading1]
    simp only [Bool.true_and, Bool.and_true]
    split_ifs <;> simp [isHeading1]
  · intro dec secIdx s t h ht
    have h1 : getBlocks (setTitle s t) = getBlocks s := rfl
    have h2 : (setTitle s t).subsections = s.subsections := rfl
    have h3 : (setTitle s t).content = s.content := rfl
    have h4 : truthy (setTitle s t).title = true := by
      simp [setTitle, truthy, ht]
    have h5 : (setTitle s t).title.getD "" = t := rfl
    unfold IeeeGenFixed.addSection IeeeGenFixed.sectionBlocks
    rw [h1, h2, h3, h4, h5, h]
    simp
  · intro dec j pre post s _
    exact IeeeGenFixed.secsGo_split dec pre s post j

/-- C10 witness: the untitled section `c10Sec` has no level-1 heading
among its units, and titling it "Methods" prepends exactly the heading
"1. METHODS". -/
theorem c10_witness :
    truthy c10Sec.title = false
    ∧ (IeeeGenFixed.addSection pyB64DecodeOk c10Sec 1).all (fun u => !isHeading1 u) = true
    ∧ ("Methods" ≠ ""
       ∧ IeeeGenFixed.addSection pyB64DecodeOk (setTitle c10Sec "Methods") 1
           = OutUnit.heading 1 (toString 1 ++ ". " ++ pyUpper "Methods")
               :: IeeeGenFixed.addSection pyB64DecodeOk c10Sec 1) :=
  ⟨by decide,
   c10_untitled_section.1 pyB64DecodeOk 1 c10Sec (by decide),
   by decide,
   c10_untitled_section.2.1 pyB64DecodeOk 1 c10Sec "Methods" (by decide) (by decide)⟩

/-- C2 counterexample: in a section whose three image-bearing blocks
mix a text block with attached image data and two explicit image
blocks, the emitted captions are `Fig. 1.1`, `Fig. 1.1`, `Fig. 1.2` —
not the claimed `Fig. 1.1`, `Fig. 1.2`, `Fig. 1.3` — because the
text-attached counter counts both kinds while the explicit-image
counter counts only explicit image blocks. -/
theorem c2_counterexample :
    captionsOf (IeeeGenFixed.addSection pyB64DecodeOk c2MixSec 1)
      = ["Fig. 1.1: c1", "Fig. 1.1: c2", "Fig. 1.2: c3"]
    ∧ captionsOf (IeeeGenFixed.addSection pyB64DecodeOk c2MixSec 1)
      ≠ ["Fig. 1.1: c1", "Fig. 1.2: c2", "Fig. 1.3: c3"] :=
  ⟨by decide, by decide⟩

/-- C2 (amended): for every section whose explicit image blocks all
carry truthy data and caption and decode successfully, and whose text
blocks carry no attached image data, a section whose image-bearing
blocks are exactly 3 explicit image blocks emits the captions
`Fig. <idx>.1`, `Fig. <idx>.2`, `Fig. <idx>.3` in block order; the
numbering depends only on the section's own blocks and 1-based index,
so it restarts at 1 in every section. -/
theorem c2_figure_numbering_explicit_images :
    ∀ (dec : String → Bool) (secIdx : Nat) (s : Sec) (b1 b2 b3 : ContentBlock),
      (∀ b ∈ getBlocks s, goodBlock dec b) →
      (getBlocks s).filter isImgType = [b1, b2, b3] →
      captionsOf (IeeeGenFixed.addSection dec s secIdx)
        = [capNum secIdx 1 (b1.caption.getD ""), capNum secIdx 2 (b2.caption.getD ""),
           capNum secIdx 3 (b3.caption.getD "")] := by
  intro dec secIdx s b1 b2 b3 h hf
  rw [IeeeGenFixed.addSection_captions dec secIdx s h,
      canonicalCaps_eq_capsFromList secIdx (getBlocks s) 0, hf]
  rfl

/-- C2 witness: a section with three explicit image blocks (and plain
text blocks between them) at section index 2 captions them
`Fig. 2.1`, `Fig. 2.2`, `Fig. 2.3`. -/
theorem c2_witness :
    (∀ b ∈ getBlocks c2ImgSec, goodBlock pyB64DecodeOk b)
    ∧ (getBlocks c2ImgSec).filter isImgType
        = [imageBlock "AAAA" "one", imageBlock "BBBB" "two", imageBlock "CCCC" "three"]
    ∧ captionsOf (IeeeGenFixed.addSection pyB64DecodeOk c2ImgSec 2)
        = [capNum 2 1 ((imageBlock "AAAA" "one").caption.getD ""),
           capNum 2 2 ((imageBlock "BBBB" "two").caption.getD ""),
           capNum 2 3 ((imageBlock "CCCC" "three").caption.getD "")] :=
  ⟨by decide, by decide,
   c2_figure_numbering_explicit_images pyB64DecodeOk 2 c2ImgSec
     (imageBlock "AAAA" "one") (imageBlock "BBBB" "two") (imageBlock "CCCC" "three")
     (by decide) (by decide)⟩

/-- C8 counterexample: for a section whose only block is a text block
with attached image data, the DOCX emitter produces the caption
`Fig. 1.1: c` while the PDF-native emitter produces no caption at all
(its block loop has no text-attached-image branch). -/
theorem c8_counterexample :
    captionsOf (IeeeGenFixed.secsGo pyB64DecodeOk 1 c8Secs) = ["Fig. 1.1: c"]
    ∧ captionsOf (PdfIdentical.addSections pyB64DecodeOk c8Secs) = [] :=
  ⟨by decide, by decide⟩

/-- C8 (amended): the DOCX emitter and the PDF-native emitter produce
the same caption sequence (same set of captioned blocks, same
`Fig. <section>.<n>` labels) for every request whose image-bearing
blocks are all explicit image blocks with truthy data and caption
whose payloads decode; they diverge on text blocks carrying attached
image data (DOCX-only figures) and on explicit image blocks lacking
data or caption (which consume a number in the DOCX backend only). -/
theorem c8_caption_agreement_explicit_images :
    ∀ (dec : String → Bool) (d : DocumentRequest),
      (∀ s ∈ d.sections, ∀ b ∈ getBlocks s, goodBlock dec b) →
      captionsOf (IeeeGenFixed.generate dec d)
        = captionsOf (PdfIdentical.addSections dec d.sections) := by
  intro dec d h
  unfold IeeeGenFixed.generate IeeeGenFixed.phaseTwo PdfIdentical.addSections
  rw [captionsOf_append, IeeeGenFixed.captionsOf_phaseOne]
  rw [show captionsOf
        (OutUnit.columnBreak true 2 true true ::
          (IeeeGenFixed.secsGo dec 1 d.sections ++ IeeeGenFixed.addReferences d.references))
      = captionsOf
          (IeeeGenFixed.secsGo dec 1 d.sections ++ IeeeGenFixed.addReferences d.references)
      from rfl]
  rw [captionsOf_append, IeeeGenFixed.captionsOf_addReferences, List.append_nil,
      List.nil_append]
  exact secsGo_captions_agree dec d.sections 1 h

/-- C8 witness: a two-section request with one explicit image block
per section gets identical caption sequences from both backends. -/
theorem c8_witness :
    (∀ s ∈ c8GoodDoc.sections, ∀ b ∈ getBlocks s, goodBlock pyB64DecodeOk b)
    ∧ captionsOf (IeeeGenFixed.generate pyB64DecodeOk c8GoodDoc)
        = captionsOf (PdfIdentical.addSections pyB64DecodeOk c8GoodDoc.sections) :=
  ⟨by decide, c8_caption_agreement_explicit_images pyB64DecodeOk c8GoodDoc (by decide)⟩

/-! ## Decode-failure helpers -/

namespace IeeeGenFixed

/-- A block whose payload fails to decode contributes exactly its text
part: no image unit, no caption unit. -/
theorem blockUnits_decode_failed (dec : String → Bool) (cbs : List ContentBlock)
    (secIdx i : Nat) (b : ContentBlock)
    (h : dec (stripDataUrl (b.data.getD "")) = false) :
    blockUnits dec cbs secIdx i b = textPart b := by
  simp only [blockUnits, textPart, h]
  split_ifs <;> simp_all

theorem captionsOf_textPart (b : ContentBlock) : captionsOf (textPart b) = [] := by
  unfold textPart
  split_ifs <;> simp [captionsOf]

end IeeeGenFixed

/-- C1 counterexample: `document_generator.py`'s `add_section` aborts
on a section whose explicit image block carries the malformed payload
`"not-base64!!"` — the bare `base64.b64decode` call in its
explicit-image branch propagates the decode error instead of catching
it per-image. -/
theorem c1_counterexample :
    pyB64DecodeOk "not-base64!!" = false
    ∧ isOkResult (DocumentGenerator.dgAddSection pyB64DecodeOk c1BadSec 1) = false :=
  ⟨by decide, by decide⟩

/-- C1 (amended): in `ieee_generator_fixed.py` (the generator the
endpoints import) a decode failure is caught per-image for both block
kinds: (1) the failing block contributes exactly its text part, with
no image and no caption; (2) within its section all other blocks
before and after are rendered unchanged (the block loop splits around
it); (3) the document loop renders every other section and, after
them, the references, independently.  In `document_generator.py` only
the text-attached branch catches the failure (4); a decode failure in
an explicit image block raises and aborts the section (5). -/
theorem c1_decode_failure_policy :
    (∀ (dec : String → Bool) (cbs : List ContentBlock) (secIdx i : Nat) (b : ContentBlock),
       dec (stripDataUrl (b.data.getD "")) = false →
       IeeeGenFixed.blockUnits dec cbs secIdx i b = IeeeGenFixed.textPart b
       ∧ captionsOf (IeeeGenFixed.blockUnits dec cbs secIdx i b) = [])
    ∧ (∀ (dec : String → Bool) (secIdx : Nat) (pre post : List ContentBlock) (b : ContentBlock),
       dec (stripDataUrl (b.data.getD "")) = false →
       IeeeGenFixed.sectionBlocks dec (pre ++ b :: post) secIdx
         = IeeeGenFixed.blocksGo dec (pre ++ b :: post) secIdx 0 pre
           ++ IeeeGenFixed.textPart b
           ++ IeeeGenFixed.blocksGo dec (pre ++ b :: post) secIdx (pre.length + 1) post)
    ∧ (∀ (dec : String → Bool) (j : Nat) (pre post : List Sec) (s : Sec),
       IeeeGenFixed.secsGo dec j (pre ++ s :: post)
         = IeeeGenFixed.secsGo dec j pre ++ IeeeGenFixed.addSection dec s (j + pre.length)
           ++ IeeeGenFixed.secsGo dec (j + pre.length + 1) post)
    ∧ (∀ (dec : String → Bool) (cbs : List ContentBlock) (secIdx i : Nat) (b : ContentBlock),
       b.type = some "text" → truthy b.content = true → dec (b.data.getD "") = false →
       DocumentGenerator.dgBlockUnits dec cbs secIdx i b
         = Except.ok [OutUnit.bodyPara (b.content.getD "")])
    ∧ (∀ (dec : String → Bool) (cbs : List ContentBlock) (secIdx i : Nat) (b : ContentBlock),
       b.type = some "image" → truthy b.data = true → truthy b.caption = true →
       dec (b.data.getD "") = false →
       DocumentGenerator.dgBlockUnits dec cbs secIdx i b
         = Except.error "binascii.Error: invalid base64-encoded string") := by
  refine ⟨?_, ?_, ?_, ?_, ?_⟩
  · intro dec cbs secIdx i b h
    refine ⟨IeeeGenFixed.blockUnits_decode_failed dec cbs secIdx i b h, ?_⟩
    rw [IeeeGenFixed.blockUnits_decode_failed dec cbs secIdx i b h]
    exact IeeeGenFixed.captionsOf_textPart b
  · intro dec secIdx pre post b h
    unfold IeeeGenFixed.sectionBlocks
    rw [IeeeGenFixed.blocksGo_append dec (pre ++ b :: post) secIdx pre (b :: post) 0]
    rw [show (0 : Nat) + pre.length = pre.length from by omega]
    rw [IeeeGenFixed.blocksGo, IeeeGenFixed.blockUnits_decode_failed dec _ secIdx _ b h]
    simp [List.append_assoc]
  · intro dec j pre post s
    exact IeeeGenFixed.secsGo_split dec pre s post j
  · intro dec cbs secIdx i b ht hc h
    simp [DocumentGenerator.dgBlockUnits, ht, hc, h]
  · intro dec cbs secIdx i b hi hd hcap h
    simp [DocumentGenerator.dgBlockUnits, hi, hd, hcap, h]

/-- C1 witness: the malformed payload `"not-base64!!"` fails to
decode; the fixed generator's block emitter reduces the block to its
text part, while `document_generator.py`'s explicit-image branch
raises. -/
theorem c1_witness :
    pyB64DecodeOk (stripDataUrl ((imageBlock "not-base64!!" "A caption").data.getD "")) = false
    ∧ IeeeGenFixed.blockUnits pyB64DecodeOk [imageBlock "not-base64!!" "A caption"] 1 0
        (imageBlock "not-base64!!" "A caption")
        = IeeeGenFixed.textPart (imageBlock "not-base64!!" "A caption")
    ∧ DocumentGenerator.dgBlockUnits pyB64DecodeOk [imageBlock "not-base64!!" "A caption"] 1 0
        (imageBlock "not-base64!!" "A caption")
        = Except.error "binascii.Error: invalid base64-encoded string" :=
  ⟨by decide,
   (c1_decode_failure_policy.1 pyB64DecodeOk [imageBlock "not-base64!!" "A caption"] 1 0
     (imageBlock "not-base64!!" "A caption") (by decide)).1,
   c1_decode_failure_policy.2.2.2.2 pyB64DecodeOk [imageBlock "not-base64!!" "A caption"] 1 0
     (imageBlock "not-base64!!" "A caption") (by decide) (by decide) (by decide) (by decide)⟩

/-! ## Subsection recursion: fuel stabilisation -/

namespace GeneratePdf

theorem nestedLoop_congr (san : String → String) (pn : String) (level : Nat)
    (r1 r2 : String → String → List OutUnit)
    (h : ∀ cid cnum, r1 cid cnum = r2 cid cnum) :
    ∀ (j : Nat) (l : List Subsec),
      nestedLoop san pn level r1 j l = nestedLoop san pn level r2 j l := by
  intro j l
  induction l generalizing j with
  | nil => rfl
  | cons c rest ih => simp only [nestedLoop, h, ih]

/-- Fuel stabilisation: `6 - level` units of fuel compute
`add_nested_subsection` exactly, for every subsection list (including
cyclically-linked `parentId` graphs) — the recursion terminates because
the level strictly increases and is guarded by `level < 5`. -/
theorem addNested_stable (san : String → String) (subs : List Subsec) :
    ∀ (f g level : Nat) (pid pn : String),
      6 - level ≤ f + 1 → 6 - level ≤ g + 1 →
      addNested san subs (f+1) pid pn level = addNested san subs (g+1) pid pn level := by
  intro f
  induction f with
  | zero =>
      intro g level pid pn hf _
      have h5 : ¬ level < 5 := by omega
      simp only [addNested]
      apply nestedLoop_congr
      intro cid cnum
      simp [h5]
  | succ f ih =>
      intro g level pid pn hf hg
      simp only [addNested]
      apply nestedLoop_congr
      intro cid cnum
      by_cases h5 : level < 5
      · rw [if_pos h5, if_pos h5]
        obtain ⟨g2, rfl⟩ : ∃ g2, g = g2 + 1 := ⟨g - 1, by omega⟩
        exact ih g2 (level + 1) cid cnum (by omega) (by omega)
      · rw [if_neg h5, if_neg h5]

end GeneratePdf

/-- C6: the recursive subsection walk of `api/generate-pdf.py`
terminates and renders at most 5 levels: (1) its result is independent
of the unrolling depth once `6 - level` recursion steps are allowed,
for arbitrary (even cyclic) `parentId` graphs; (2) at level 5 a single
step suffices — no recursive call is made once level 5 is reached;
(3) the concrete chain of 7 subsections linked via `parentId` renders
exactly the first 5 headings, at nesting levels 1 through 5. -/
theorem c6_subsection_depth_cap :
    (∀ (san : String → String) (subs : List GeneratePdf.Subsec) (pid pn : String)
       (level f g : Nat),
       6 - level ≤ f + 1 → 6 - level ≤ g + 1 →
       GeneratePdf.addNested san subs (f+1) pid pn level
         = GeneratePdf.addNested san subs (g+1) pid pn level)
    ∧ (∀ (san : String → String) (subs : List GeneratePdf.Subsec) (pid pn : String)
       (level f : Nat), 5 ≤ level →
       GeneratePdf.addNested san subs (f+1) pid pn level
         = GeneratePdf.addNested san subs 1 pid pn level)
    ∧ GeneratePdf.addSubsectionsRecursive idSan chain7 1
        = [OutUnit.heading 2 "1.1 T1", OutUnit.heading 3 "1.1.1 T2",
           OutUnit.heading 4 "1.1.1.1 T3", OutUnit.heading 5 "1.1.1.1.1 T4",
           OutUnit.heading 6 "1.1.1.1.1.1 T5"] := by
  refine ⟨?_, ?_, ?_⟩
  · intro san subs pid pn level f g hf hg
    exact GeneratePdf.addNested_stable san subs f g level pid pn hf hg
  · intro san subs pid pn level f h5
    exact GeneratePdf.addNested_stable san subs f 0 level pid pn (by omega) (by omega)
  · decide

/-- C6 witness: on the 7-chain the walk from level 2 computes the same
result with fuel 10 and fuel 5. -/
theorem c6_witness :
    (6 - 2 ≤ 9 + 1 ∧ 6 - 2 ≤ 4 + 1)
    ∧ GeneratePdf.addNested idSan chain7 10 "s1" "1.1" 2
        = GeneratePdf.addNested idSan chain7 5 "s1" "1.1" 2 :=
  ⟨⟨by decide, by decide⟩,
   c6_subsection_depth_cap.1 idSan chain7 "s1" "1.1" 2 9 4 (by decide) (by decide)⟩

/-! ## Phase classification lemmas -/

theorem front_not_break : ∀ u : OutUnit, isFrontUnit u = true → (!isColBreak u) = true := by
  intro u
  cases u <;> simp [isFrontUnit, isColBreak]

theorem body_not_break : ∀ u : OutUnit, isBodyUnit u = true → (!isColBreak u) = true := by
  intro u
  cases u <;> simp [isBodyUnit, isColBreak]

theorem pre_pdf_not_break : ∀ u : OutUnit, isPrePdfUnit u = true → (!isColBreak u) = true := by
  intro u
  cases u <;> simp [isPrePdfUnit, isColBreak]

theorem allImp {p q : OutUnit → Bool} (h : ∀ u, p u = true → q u = true) :
    ∀ l : List OutUnit, l.all p = true → l.all q = true := by
  intro l
  induction l with
  | nil => intro _; rfl
  | cons u l ih =>
      intro hl
      rw [List.all_cons, Bool.and_eq_true] at hl ⊢
      exact ⟨h u hl.1, ih hl.2⟩

namespace IeeeGenFixed

theorem detailsGo_front : ∀ l, (detailsGo l).all isFrontUnit = true := by
  intro l
  induction l with
  | nil => rfl
  | cons f l ih =>
      rw [detailsGo, List.all_append, ih]
      split_ifs <;> simp [isFrontUnit]

theorem customsGo_front : ∀ l, (customsGo l).all isFrontUnit = true := by
  intro l
  induction l with
  | nil => rfl
  | cons v l ih =>
      rw [customsGo, List.all_append, ih]
      split_ifs <;> simp [isFrontUnit]

theorem authorsGo_front : ∀ l, (authorsGo l).all isFrontUnit = true := by
  intro l
  induction l with
  | nil => rfl
  | cons a l ih =>
      rw [authorsGo, List.all_append, ih]
      have ha : (authorUnits a).all isFrontUnit = true := by
        unfold authorUnits
        split_ifs
        · rw [List.all_cons, List.all_append, detailsGo_front, customsGo_front]
          rfl
        · rfl
      rw [ha]
      rfl

theorem phaseOne_front (d : DocumentRequest) : (phaseOne d).all isFrontUnit = true := by
  unfold phaseOne
  rw [List.all_cons, List.all_append, List.all_append]
  have h1 : (addAuthors d.authors).all isFrontUnit = true := by
    unfold addAuthors
    split_ifs
    · rfl
    · rw [List.all_append, authorsGo_front]
      rfl
  have h2 : (addAbstract (d.abstract.getD "")).all isFrontUnit = true := by
    unfold addAbstract
    split_ifs <;> rfl
  have h3 : (addKeywords (d.keywords.getD "")).all isFrontUnit = true := by
    unfold addKeywords
    split_ifs <;> rfl
  rw [h1, h2, h3]
  rfl

theorem blockUnits_body (dec : String → Bool) (cbs : List ContentBlock)
    (secIdx i : Nat) (b : ContentBlock) :
    (blockUnits dec cbs secIdx i b).all isBodyUnit = true := by
  unfold blockUnits
  split_ifs <;> simp [isBodyUnit]
  all_goals rintro x - (rfl | rfl) <;> rfl

theorem blocksGo_body (dec : String → Bool) (cbs : List ContentBlock) (secIdx : Nat) :
    ∀ (l : List ContentBlock) (i : Nat),
      (blocksGo dec cbs secIdx i l).all isBodyUnit = true := by
  intro l
  induction l with
  | nil => intro i; rfl
  | cons b l ih =>
      intro i
      rw [blocksGo, List.all_append, ih (i+1), blockUnits_body]
      rfl

theorem subsGo_body (secIdx : Nat) :
    ∀ (l : List FlatSubsection) (j : Nat),
      (subsGo secIdx j l).all isBodyUnit = true := by
  intro l
  induction l with
  | nil => intro j; rfl
  | cons s l ih =>
      intro j
      rw [subsGo, List.all_append, ih (j+1)]
      have hs : (subUnits secIdx j s).all isBodyUnit = true := by
        unfold subUnits
        split_ifs <;> rfl
      rw [hs]
      rfl

theorem addSection_body (dec : String → Bool) (s : Sec) (secIdx : Nat) :
    (addSection dec s secIdx).all isBodyUnit = true := by
  unfold addSection sectionBlocks
  rw [List.all_append, List.all_append, List.all_append]
  rw [blocksGo_body, subsGo_body]
  split_ifs <;> rfl

theorem secsGo_body (dec : String → Bool) :
    ∀ (l : List Sec) (j : Nat), (secsGo dec j l).all isBodyUnit = true := by
  intro l
  induction l with
  | nil => intro j; rfl
  | cons s l ih =>
      intro j
      rw [secsGo, List.all_append, ih (j+1), addSection_body]
      rfl

theorem refsGo_body : ∀ (l : List Reference) (n : Nat), (refsGo n l).all isBodyUnit = true := by
  intro l
  induction l with
  | nil => intro n; rfl
  | cons r l ih =>
      intro n
      rw [refsGo, List.all_append, ih (n+1)]
      split_ifs <;> rfl

theorem phaseTwo_body (dec : String → Bool) (d : DocumentRequest) :
    (phaseTwo dec d).all isBodyUnit = true := by
  unfold phaseTwo
  rw [List.all_append, secsGo_body]
  have hr : (addReferences d.references).all isBodyUnit = true := by
    unfold addReferences
    split_ifs
    · rfl
    · rw [List.all_cons, refsGo_body]
      rfl
  rw [hr]
  rfl

end IeeeGenFixed

namespace GeneratePdf

theorem detailsGo_pre (san : String → String) :
    ∀ l, (detailsGo san l).all isPrePdfUnit = true := by
  intro l
  induction l with
  | nil => rfl
  | cons f l ih =>
      rw [detailsGo, List.all_append, ih]
      split_ifs <;> rfl

theorem customsGo_pre (san : String → String) :
    ∀ l, (customsGo san l).all isPrePdfUnit = true := by
  intro l
  induction l with
  | nil => rfl
  | cons v l ih =>
      rw [customsGo, List.all_append, ih]
      split_ifs <;> rfl

theorem authorsGo_pre (san : String → String) :
    ∀ l, (authorsGo san l).all isPrePdfUnit = true := by
  intro l
  induction l with
  | nil => rfl
  | cons a l ih =>
      rw [authorsGo, List.all_append, ih]
      have ha : (authorUnits san a).all isPrePdfUnit = true := by
        unfold authorUnits
        split_ifs
        · rw [List.all_cons, List.all_append, detailsGo_pre, customsGo_pre]
          rfl
        · rfl
      rw [ha]
      rfl

theorem addAuthors_pre (san : String → String) (authors : List Author) :
    (addAuthors san authors).all isPrePdfUnit = true := by
  unfold addAuthors
  split_ifs
  · rfl
  · rw [List.all_append, authorsGo_pre]
    rfl

end GeneratePdf

/-- C4 counterexample: `api/generate-pdf.py`'s `generate_ieee_document`
emits the abstract and keywords AFTER the continuous two-column break —
for a request with abstract "X" and keywords "K", the units before the
break are only title and author cells, and the abstract paragraph sits
in the two-column phase. -/
theorem c4_counterexample :
    GeneratePdf.generate idSan pyB64DecodeOk c4PdfDoc
      = [OutUnit.titlePara "T", OutUnit.authorName "A", OutUnit.emptyPara,
         OutUnit.columnBreak true 2 true true, OutUnit.abstractPara "X",
         OutUnit.keywordsPara "Keywords—K", OutUnit.emptyPara]
    ∧ beforeBreak (GeneratePdf.generate idSan pyB64DecodeOk c4PdfDoc)
        = [OutUnit.titlePara "T", OutUnit.authorName "A", OutUnit.emptyPara]
    ∧ OutUnit.abstractPara "X" ∈ afterBreak (GeneratePdf.generate idSan pyB64DecodeOk c4PdfDoc) :=
  ⟨by decide, by decide, by decide⟩

/-- C4 (amended): `ieee_generator_fixed.py` implements the claimed
two-phase emission exactly: exactly one layout break, which is a
continuous break configured with 2 equal-width columns and balancing
disabled; everything before it is front matter (title, author cells,
abstract, keywords, spacing) and everything after it is body content
(headings, paragraphs, figures, captions, references).  In the
`api/generate-pdf.py` variant only title and author cells precede the
break; the abstract and keywords are emitted at the start of the
two-column phase. -/
theorem c4_two_phase_layout :
    (∀ (dec : String → Bool) (d : DocumentRequest),
       (IeeeGenFixed.generate dec d).countP isColBreak = 1
       ∧ OutUnit.columnBreak true 2 true true ∈ IeeeGenFixed.generate dec d
       ∧ (beforeBreak (IeeeGenFixed.generate dec d)).all isFrontUnit = true
       ∧ (afterBreak (IeeeGenFixed.generate dec d)).all isBodyUnit = true)
    ∧ (∀ (san : String → String) (dec : String → Bool) (d : GeneratePdf.ReqP),
       (beforeBreak (GeneratePdf.generate san dec d)).all isPrePdfUnit = true
       ∧ (truthy d.abstract = true →
          OutUnit.abstractPara (san (d.abstract.getD ""))
            ∈ afterBreak (GeneratePdf.generate san dec d))) := by
  constructor
  · intro dec d
    have hfront := IeeeGenFixed.phaseOne_front d
    have hbody := IeeeGenFixed.phaseTwo_body dec d
    have hnb : (IeeeGenFixed.phaseOne d).all (fun u => !isColBreak u) = true :=
      allImp front_not_break _ hfront
    have hnb2 : (IeeeGenFixed.phaseTwo dec d).all (fun u => !isColBreak u) = true :=
      allImp body_not_break _ hbody
    have hbrk : isColBreak (OutUnit.columnBreak true 2 true true) = true := rfl
    have hsplit := takeWhile_dropWhile_break isColBreak (IeeeGenFixed.phaseOne d)
      (OutUnit.columnBreak true 2 true true) (IeeeGenFixed.phaseTwo dec d) hnb hbrk
    refine ⟨?_, ?_, ?_, ?_⟩
    · unfold IeeeGenFixed.generate
      rw [List.countP_append, List.countP_cons]
      rw [countP_zero_of_all_not isColBreak _ hnb,
          countP_zero_of_all_not isColBreak _ hnb2]
      simp [hbrk]
    · unfold IeeeGenFixed.generate
      exact List.mem_append_right _ (List.mem_cons_self _ _)
    · unfold beforeBreak IeeeGenFixed.generate
      rw [hsplit.1]
      exact hfront
    · unfold afterBreak IeeeGenFixed.generate
      rw [hsplit.2]
      simpa using hbody
  · intro san dec d
    have hshape : GeneratePdf.generate san dec d
        = (OutUnit.titlePara (san (d.title.getD ""))
            :: GeneratePdf.addAuthors san d.authors)
          ++ OutUnit.columnBreak true 2 true true
            :: (GeneratePdf.addAbstract san (d.abstract.getD "")
                ++ GeneratePdf.addKeywords san (d.keywords.getD "")
                ++ GeneratePdf.secsGo san dec 1 d.sections
                ++ GeneratePdf.addReferences san d.references) := rfl
    have hpre : (OutUnit.titlePara (san (d.title.getD ""))
        :: GeneratePdf.addAuthors san d.authors).all isPrePdfUnit = true := by
      rw [List.all_cons, GeneratePdf.addAuthors_pre]
      rfl
    have hnb : (OutUnit.titlePara (san (d.title.getD ""))
        :: GeneratePdf.addAuthors san d.authors).all (fun u => !isColBreak u) = true :=
      allImp pre_pdf_not_break _ hpre
    have hbrk : isColBreak (OutUnit.columnBreak true 2 true true) = true := rfl
    have hsplit := takeWhile_dropWhile_break isColBreak
      (OutUnit.titlePara (san (d.title.getD "")) :: GeneratePdf.addAuthors san d.authors)
      (OutUnit.columnBreak true 2 true true)
      (GeneratePdf.addAbstract san (d.abstract.getD "")
       ++ GeneratePdf.addKeywords san (d.keywords.getD "")
       ++ GeneratePdf.secsGo san dec 1 d.sections
       ++ GeneratePdf.addReferences san d.references) hnb hbrk
    constructor
    · unfold beforeBreak
      rw [hshape, hsplit.1]
      exact hpre
    · intro habs
      unfold afterBreak
      rw [hshape, hsplit.2]
      cases hval : d.abstract with
      | none => rw [hval] at habs; exact absurd habs (by decide)
      | some a =>
          have hne : (a != "") = true := by
            rw [hval] at habs
            exact habs
          have hopen : GeneratePdf.addAbstract san ((some a).getD "")
              = [OutUnit.abstractPara (san a)] := by
            unfold GeneratePdf.addAbstract
            simp only [Option.getD_some]
            rw [if_pos hne]
          rw [hopen]
          simp

/-- C4 witness: for the concrete request with abstract "X", the
abstract paragraph lands in the two-column phase of the
`generate-pdf.py` variant, and the fixed generator's output has
exactly one break with front/body separation. -/
theorem c4_witness :
    truthy c4PdfDoc.abstract = true
    ∧ OutUnit.abstractPara (idSan (c4PdfDoc.abstract.getD ""))
        ∈ afterBreak (GeneratePdf.generate idSan pyB64DecodeOk c4PdfDoc)
    ∧ (IeeeGenFixed.generate pyB64DecodeOk c5Doc).countP isColBreak = 1 :=
  ⟨by decide,
   (c4_two_phase_layout.2 idSan pyB64DecodeOk c4PdfDoc).2 (by decide),
   (c4_two_phase_layout.1 pyB64DecodeOk c5Doc).1⟩
